import Mathlib

/- Verification development for the Smart Store Access System server
   (src/server.py): a hand-rolled CoAP codec, a capacity ledger, and the
   request handlers built on them. Byte strings are modelled as List Nat
   with entries in 0..255; Python integers are Nat or Int as appropriate
   (Python ints are unbounded, so no wrap-around modelling is needed). -/

/- ---------------------------------------------------------------------
   Constants (classes CoAPType, CoAPCode, CoAPOption in server.py)
   --------------------------------------------------------------------- -/

def CoAPType.CON : Nat := 0

def CoAPType.NON : Nat := 1

def CoAPType.ACK : Nat := 2

def CoAPType.RST : Nat := 3

def CoAPCode.GET : Nat := 1

def CoAPCode.POST : Nat := 2

def CoAPCode.PUT : Nat := 3

def CoAPCode.CHANGED : Nat := 68

def CoAPCode.CONTENT : Nat := 69

def CoAPCode.METHOD_NOT_ALLOWED : Nat := 133

def CoAPOption.URI_PATH : Nat := 11

/- ---------------------------------------------------------------------
   Data model: class CoAPMessage (fields set in CoAPMessage.__init__).
   The source also carries a transport-level field `source` (the sender
   address); it is set by the receive loop, never by the codec, and no
   claim concerns it, so it is omitted from the embedding.
   --------------------------------------------------------------------- -/

structure CoAPMessage where
  version : Nat
  type : Nat
  token_length : Nat
  code : Nat
  message_id : Nat
  token : List Nat
  options : List (Nat × List Nat)
  payload : List Nat
deriving Repr, DecidableEq

/-- Field defaults from CoAPMessage.__init__ in server.py. -/
def CoAPMessage.init : CoAPMessage :=
  { version := 1, type := 0, token_length := 0, code := 0, message_id := 0,
    token := [], options := [], payload := [] }

/- ---------------------------------------------------------------------
   Decode errors. CoAPMessage.parse raises exactly one typed error,
   ValueError("Message too short"), for buffers under 4 bytes (modelled
   as tooShort). Reading an extension byte past the end of the buffer
   raises an untyped Python error: data[pos] raises IndexError when pos
   is out of range (modelled as indexError), and
   struct.unpack("!H", data[pos:pos+2]) raises struct.error when fewer
   than 2 bytes remain, because the slice silently shortens (modelled as
   structError). No other failure exists in parse: token and option
   value slices silently truncate instead of failing.
   --------------------------------------------------------------------- -/

inductive DecodeError where
  | tooShort
  | indexError
  | structError
deriving Repr, DecidableEq

/-- Models the two extension steps in CoAPMessage.parse (lines 134-148),
applied identically to the delta nibble and to the length nibble: nibble
13 reads one byte and adds 13 (data[pos] raises IndexError when no byte
remains); nibble 14 reads two bytes big-endian and adds 269
(struct.unpack raises struct.error when fewer than two bytes remain);
every other nibble value, 15 included, is used literally. -/
def readExt (nib : Nat) (rest : List Nat) : Except DecodeError (Nat × List Nat) :=
  if nib = 13 then
    match rest with
    | x :: r => Except.ok (x + 13, r)
    | [] => Except.error DecodeError.indexError
  else if nib = 14 then
    match rest with
    | x :: y :: r => Except.ok (x * 256 + y + 269, r)
    | _ => Except.error DecodeError.structError
  else Except.ok (nib, rest)

/-- Models the option/payload while-loop of CoAPMessage.parse (lines
123-158). Returns the accumulated (option number, option value) list and
the payload. A leading byte 0xFF hands the remaining bytes over as the
payload; otherwise the leading byte carries the delta nibble (high) and
length nibble (low), each extended by readExt, the running option number
grows by the delta, and the option value is the slice
data[pos:pos+option_length], which in Python silently truncates to the
bytes that remain. The fuel argument only discharges termination: every
iteration consumes at least the leading option byte, so any fuel of at
least the list length gives the exact loop behaviour
(parseOpts_fuel_irrelevant below); parse passes the whole buffer length.
The zero-fuel branch with a nonempty list is unreachable from parse. -/
def parseOpts : Nat → List Nat → Nat → Except DecodeError (List (Nat × List Nat) × List Nat)
  | _, [], _ => Except.ok ([], [])
  | 0, _ :: _, _ => Except.ok ([], [])
  | fuel + 1, b :: rest1, optNum =>
    if b = 255 then Except.ok ([], rest1)
    else
      match readExt ((b >>> 4) &&& 15) rest1 with
      | Except.error e => Except.error e
      | Except.ok (delta, rest2) =>
        match readExt (b &&& 15) rest2 with
        | Except.error e => Except.error e
        | Except.ok (len, rest3) =>
          match parseOpts fuel (rest3.drop len) (optNum + delta) with
          | Except.error e => Except.error e
          | Except.ok (opts, payload) =>
            Except.ok ((optNum + delta, rest3.take len) :: opts, payload)

/-- Models CoAPMessage.parse (lines 100-160). Header byte 0 splits into
version (top 2 bits), type (next 2 bits) and token length (low nibble);
byte 1 is the code and bytes 2-3 the big-endian message id. The token is
the slice data[4:4+token_length], which silently truncates when the
buffer is short, and option parsing starts at offset 4+token_length.
parse performs no validation beyond the 4-byte minimum: the version
field, a token-length nibble of 9-15, and nibble value 15 are all
accepted as-is. -/
def parse (data : List Nat) : Except DecodeError CoAPMessage :=
  if data.length < 4 then Except.error DecodeError.tooShort
  else
    match parseOpts data.length (data.drop (4 + (data.getD 0 0 &&& 15))) 0 with
    | Except.error e => Except.error e
    | Except.ok (opts, payload) =>
      Except.ok
        { version := (data.getD 0 0 >>> 6) &&& 3
          type := (data.getD 0 0 >>> 4) &&& 3
          token_length := data.getD 0 0 &&& 15
          code := data.getD 1 0
          message_id := data.getD 2 0 * 256 + data.getD 3 0
          token := (data.drop 4).take (data.getD 0 0 &&& 15)
          options := opts
          payload := payload }

/- ---------------------------------------------------------------------
   Serialization.
   --------------------------------------------------------------------- -/

/-- Strict lexicographic order on byte strings, as Python compares bytes
objects. Used to model how Python orders the (number, value) option
tuples inside sorted(). -/
def bytesLt : List Nat → List Nat → Bool
  | [], [] => false
  | [], _ :: _ => true
  | _ :: _, [] => false
  | x :: xs, y :: ys => if x < y then true else if y < x then false else bytesLt xs ys

/-- Python tuple comparison, non-strict: (n1, v1) <= (n2, v2) compares
the numbers first and falls back to byte-string comparison on a tie.
This is the order sorted(self.options) uses in CoAPMessage.serialize. -/
def optLe (a b : Nat × List Nat) : Bool :=
  if a.1 < b.1 then true
  else if b.1 < a.1 then false
  else if a.2 = b.2 then true
  else bytesLt a.2 b.2

def OptLeR (a b : Nat × List Nat) : Prop := optLe a b = true

instance : DecidableRel OptLeR :=
  fun a b => inferInstanceAs (Decidable (optLe a b = true))

/-- Models sorted(self.options) in CoAPMessage.serialize (line 189).
Python sorted is a stable sort under the tuple order optLe; because that
order is total and antisymmetric on (number, value) pairs (ties force
full equality), every sorting algorithm returns the same list, and a
structurally recursive insertion sort is used so the kernel can evaluate
it. -/
def pySorted (opts : List (Nat × List Nat)) : List (Nat × List Nat) :=
  List.insertionSort OptLeR opts

/-- Models the option-emitting loop of CoAPMessage.serialize (lines
187-204): each option contributes one header byte built from the delta
to the previous emitted number and the value length, both masked to a
nibble with no extension bytes ever emitted, followed by the raw value.
The running number starts at 0; on the sorted list every delta is
non-negative, so Nat subtraction agrees with Python. -/
def encodeOpts : Nat → List (Nat × List Nat) → List Nat
  | _, [] => []
  | current, (n, v) :: rest =>
    ((((n - current) &&& 15) <<< 4) ||| (v.length &&& 15)) :: v ++ encodeOpts n rest

/-- Models CoAPMessage.serialize (lines 174-211): 4-byte header (the
message id split big-endian, as struct.pack("!BBH") does for in-range
values; no claim involves out-of-range header fields), then the token
only when token_length is nonzero, then the sorted options, then a 0xFF
marker plus payload only when the payload is nonempty. -/
def serialize (m : CoAPMessage) : List Nat :=
  ((((m.version &&& 3) <<< 6) ||| ((m.type &&& 3) <<< 4) ||| (m.token_length &&& 15)) ::
      m.code :: (m.message_id / 256 % 256) :: [m.message_id % 256])
    ++ (if m.token_length ≠ 0 then m.token else [])
    ++ encodeOpts 0 (pySorted m.options)
    ++ (if m.payload ≠ [] then 255 :: m.payload else [])

/-- Models str.encode("utf-8") for the ASCII payload strings the server
sends ("allowed", "denied", "success", "error", diagnostics). -/
def strBytes (s : String) : List Nat := s.data.map Char.toNat

/-- Models CoAPMessage.create_response (lines 162-172): a fresh message
carrying version 1, type ACK, the code and payload given, and the token
and message id of the request. The source only reads self, so the
request message is left unchanged; the options field keeps the empty
default from CoAPMessage.__init__. -/
def create_response (m : CoAPMessage) (code : Nat) (payload : List Nat) : CoAPMessage :=
  { version := 1
    type := CoAPType.ACK
    token_length := m.token.length
    code := code
    message_id := m.message_id
    token := m.token
    options := []
    payload := payload }

/-- Strict UTF-8 decoding of a byte string, as bytes.decode("utf-8")
succeeds or raises: continuation bytes must lie in 0x80-0xBF, overlong
forms, surrogate code points and values above 0x10FFFF are rejected. -/
def utf8Decode : List Nat → Option (List Char)
  | [] => some []
  | b :: rest =>
    if b < 128 then
      (utf8Decode rest).map (fun cs => Char.ofNat b :: cs)
    else if 194 ≤ b ∧ b ≤ 223 then
      match rest with
      | c1 :: r =>
        if 128 ≤ c1 ∧ c1 ≤ 191 then
          (utf8Decode r).map (fun cs => Char.ofNat ((b - 192) * 64 + (c1 - 128)) :: cs)
        else none
      | [] => none
    else if 224 ≤ b ∧ b ≤ 239 then
      match rest with
      | c1 :: c2 :: r =>
        if (128 ≤ c1 ∧ c1 ≤ 191) ∧ (128 ≤ c2 ∧ c2 ≤ 191) then
          let cp := (b - 224) * 4096 + (c1 - 128) * 64 + (c2 - 128)
          if 2048 ≤ cp ∧ (cp < 55296 ∨ 57343 < cp) then
            (utf8Decode r).map (fun cs => Char.ofNat cp :: cs)
          else none
        else none
      | _ => none
    else if 240 ≤ b ∧ b ≤ 244 then
      match rest with
      | c1 :: c2 :: c3 :: r =>
        if (128 ≤ c1 ∧ c1 ≤ 191) ∧ (128 ≤ c2 ∧ c2 ≤ 191) ∧ (128 ≤ c3 ∧ c3 ≤ 191) then
          let cp := (b - 240) * 262144 + (c1 - 128) * 4096 + (c2 - 128) * 64 + (c3 - 128)
          if 65536 ≤ cp ∧ cp ≤ 1114111 then
            (utf8Decode r).map (fun cs => Char.ofNat cp :: cs)
          else none
        else none
      | _ => none
    else none

/-- Hex digit characters for the fallback rendering below. -/
def hexDigit (n : Nat) : Char :=
  if n < 10 then Char.ofNat (48 + n) else Char.ofNat (87 + n)

/-- Fallback used by get_uri_path when a segment is not valid UTF-8: the
source appends str(option[1]), the Python repr of the bytes object. We
render the common single-quote form, escaping non-printable bytes as
backslash-x-hex; Python switches to double quotes when the bytes hold a
single quote and no double quote, a cosmetic difference no theorem below
touches (the fallback is only reachable for non-UTF-8 segments, which no
claim involves). -/
def pyBytesStr (v : List Nat) : String :=
  let quote := Char.ofNat 39
  let backslash := Char.ofNat 92
  let body := v.flatMap (fun b =>
    if b = 39 ∨ b = 92 then [backslash, Char.ofNat b]
    else if b = 9 then [backslash, Char.ofNat 116]
    else if b = 10 then [backslash, Char.ofNat 110]
    else if b = 13 then [backslash, Char.ofNat 114]
    else if 32 ≤ b ∧ b ≤ 126 then [Char.ofNat b]
    else [backslash, Char.ofNat 120, hexDigit (b / 16 % 16), hexDigit (b % 16)])
  String.mk (Char.ofNat 98 :: quote :: body ++ [quote])

/-- One segment of CoAPMessage.get_uri_path: option[1].decode("utf-8")
with the str(option[1]) fallback in the except branch (lines 218-222). -/
def segString (v : List Nat) : String :=
  match utf8Decode v with
  | some cs => String.mk cs
  | none => pyBytesStr v

/-- Models CoAPMessage.get_uri_path (lines 213-224): collect the decoded
values of the options numbered URI_PATH, in order, and join them with a
slash. -/
def get_uri_path (m : CoAPMessage) : String :=
  String.intercalate "/" (m.options.filterMap
    (fun o => if o.1 = CoAPOption.URI_PATH then some (segString o.2) else none))

/- ---------------------------------------------------------------------
   Capacity ledger: class StoreStats. Counters are Int to make the
   non-negativity claims meaningful (Python ints are signed and
   unbounded). The threading.Lock only serializes the mutations; each
   operation body is modelled as the atomic state transition it performs
   under the lock.
   --------------------------------------------------------------------- -/

structure StoreStats where
  total_entrants : Int
  customers_in_store : Int
  max_capacity : Int
deriving Repr, DecidableEq

/-- Initial state from StoreStats.__init__: zero counters, capacity 10. -/
def StoreStats.init : StoreStats :=
  { total_entrants := 0, customers_in_store := 0, max_capacity := 10 }

/-- Models StoreStats.can_enter (lines 32-35). -/
def StoreStats.can_enter (s : StoreStats) : Bool :=
  s.customers_in_store < s.max_capacity

/-- Models StoreStats.add_customer (lines 37-44): below capacity, both
counters grow by one and the call reports true; otherwise nothing
changes and the call reports false. -/
def StoreStats.add_customer (s : StoreStats) : Bool × StoreStats :=
  if s.customers_in_store < s.max_capacity then
    (true, { s with customers_in_store := s.customers_in_store + 1,
                    total_entrants := s.total_entrants + 1 })
  else (false, s)

/-- Models StoreStats.remove_customer (lines 46-52): with a positive
in-store count it drops by one and the call reports true; otherwise
nothing changes and the call reports false. -/
def StoreStats.remove_customer (s : StoreStats) : Bool × StoreStats :=
  if s.customers_in_store > 0 then
    (true, { s with customers_in_store := s.customers_in_store - 1 })
  else (false, s)

/-- One ledger operation, for stating properties over operation
sequences: enter is add_customer, leave is remove_customer. -/
inductive StoreOp where
  | enter
  | leave
deriving Repr, DecidableEq

def runOp (s : StoreStats) : StoreOp → StoreStats
  | StoreOp.enter => (s.add_customer).2
  | StoreOp.leave => (s.remove_customer).2

def runOps (s : StoreStats) (ops : List StoreOp) : StoreStats :=
  ops.foldl runOp s

/- ---------------------------------------------------------------------
   Request handlers of SmartStoreServer. send_response builds the reply
   through create_response; the handler result is modelled as the reply
   message paired with the ledger state after the call. The
   store_stats.display() call only prints and is omitted.
   --------------------------------------------------------------------- -/

/-- Models SmartStoreServer.handle_entry_request (lines 376-391):
can_enter, then add_customer when it allows, answering Content with
"allowed" exactly on a successful add and Content with "denied" on
either failure path. -/
def handle_entry_request (msg : CoAPMessage) (s : StoreStats) : CoAPMessage × StoreStats :=
  if s.can_enter then
    match s.add_customer with
    | (true, s1) => (create_response msg CoAPCode.CONTENT (strBytes "allowed"), s1)
    | (false, s1) => (create_response msg CoAPCode.CONTENT (strBytes "denied"), s1)
  else (create_response msg CoAPCode.CONTENT (strBytes "denied"), s)

/-- Models SmartStoreServer.handle_exit_request (lines 393-404):
remove_customer, answering Changed with "success" on true and Changed
with "error" on false. -/
def handle_exit_request (msg : CoAPMessage) (s : StoreStats) : CoAPMessage × StoreStats :=
  match s.remove_customer with
  | (true, s1) => (create_response msg CoAPCode.CHANGED (strBytes "success"), s1)
  | (false, s1) => (create_response msg CoAPCode.CHANGED (strBytes "error"), s1)

/- ---------------------------------------------------------------------
   Concrete messages used by the evaluations below.
   --------------------------------------------------------------------- -/

/-- A well-formed message whose single option has number 300: encoding
it needs the two-byte delta extension, which serialize never emits. -/
def msgDelta300 : CoAPMessage :=
  { version := 1, type := 0, token_length := 0, code := 1, message_id := 7,
    token := [], options := [(300, [])], payload := [] }

/-- A well-formed message whose single option has number 13: encoding it
needs the one-byte delta extension, which serialize never emits. -/
def msgDelta13 : CoAPMessage :=
  { version := 1, type := 0, token_length := 0, code := 1, message_id := 7,
    token := [], options := [(13, [])], payload := [] }

/-- A message holding two options with the same number 11 whose values
are in decreasing byte order, to observe how serialize orders them. -/
def msgEqualOpts : CoAPMessage :=
  { version := 1, type := 0, token_length := 0, code := 69, message_id := 5,
    token := [], options := [(11, [98]), (11, [97])], payload := [] }

deriving instance DecidableEq for Except

/- ---------------------------------------------------------------------
   Helper lemmas about the codec model.
   --------------------------------------------------------------------- -/

/-- Reading an extension never lengthens the remaining buffer. -/
theorem readExt_length {nib : Nat} {rest : List Nat} {v : Nat} {rest2 : List Nat}
    (h : readExt nib rest = Except.ok (v, rest2)) : rest2.length ≤ rest.length := by
  unfold readExt at h
  split at h
  · cases rest with
    | nil => cases h
    | cons x r =>
      injection h with h
      injection h with h1 h2
      subst h2
      simp only [List.length_cons]
      omega
  · split at h
    · cases rest with
      | nil => cases h
      | cons x r =>
        cases r with
        | nil => cases h
        | cons y r2 =>
          injection h with h
          injection h with h1 h2
          subst h2
          simp only [List.length_cons]
          omega
    · injection h with h
      injection h with h1 h2
      subst h2
      exact Nat.le_refl _

/-- The extension reader fails only with the untyped Python errors, never
with the typed ValueError. -/
theorem readExt_not_tooShort (nib : Nat) (rest : List Nat) :
    readExt nib rest ≠ Except.error DecodeError.tooShort := by
  unfold readExt
  split
  · cases rest <;> simp
  · split
    · cases rest with
      | nil => simp
      | cons x r => cases r <;> simp
    · simp

/-- The fuel argument of parseOpts is inert: any two fuels at least the
buffer length give the same result, so parse, which passes the whole
datagram length, computes exactly the while-loop of the source. -/
theorem parseOpts_fuel_irrelevant :
    ∀ (fuel fuel2 : Nat) (rest : List Nat) (n : Nat),
      rest.length ≤ fuel → rest.length ≤ fuel2 →
      parseOpts fuel rest n = parseOpts fuel2 rest n := by
  intro fuel
  induction fuel with
  | zero =>
    intro fuel2 rest n h1 h2
    have hnil : rest = [] := List.eq_nil_of_length_eq_zero (Nat.le_zero.mp h1)
    subst hnil
    cases fuel2 <;> rfl
  | succ fuel ih =>
    intro fuel2 rest n h1 h2
    cases rest with
    | nil => cases fuel2 <;> rfl
    | cons b rest1 =>
      cases fuel2 with
      | zero => simp at h2
      | succ f2 =>
        simp only [parseOpts]
        by_cases hb : b = 255
        · simp [hb]
        · simp only [if_neg hb]
          cases hd : readExt ((b >>> 4) &&& 15) rest1 with
          | error e => simp [hd]
          | ok p =>
            obtain ⟨delta, rest2⟩ := p
            simp only [hd]
            cases hl : readExt (b &&& 15) rest2 with
            | error e => simp [hl]
            | ok q =>
              obtain ⟨len, rest3⟩ := q
              simp only [hl]
              have e2 := readExt_length hd
              have e3 := readExt_length hl
              simp only [List.length_cons] at h1 h2
              have h4 : (rest3.drop len).length ≤ fuel := by
                simp only [List.length_drop]
                omega
              have h5 : (rest3.drop len).length ≤ f2 := by
                simp only [List.length_drop]
                omega
              rw [ih f2 (rest3.drop len) (n + delta) h4 h5]

/-- The option loop never produces the typed ValueError: its only
failures are the untyped IndexError and struct.error of the extension
reads. -/
theorem parseOpts_never_tooShort :
    ∀ (fuel : Nat) (rest : List Nat) (n : Nat),
      parseOpts fuel rest n ≠ Except.error DecodeError.tooShort := by
  intro fuel
  induction fuel with
  | zero => intro rest n; cases rest <;> simp [parseOpts]
  | succ fuel ih =>
    intro rest n
    cases rest with
    | nil => simp [parseOpts]
    | cons b rest1 =>
      simp only [parseOpts]
      by_cases hb : b = 255
      · simp [hb]
      · simp only [if_neg hb]
        cases hd : readExt ((b >>> 4) &&& 15) rest1 with
        | error e =>
          simp only [hd]
          intro hc
          injection hc with hc
          subst hc
          exact readExt_not_tooShort _ _ hd
        | ok p =>
          obtain ⟨delta, rest2⟩ := p
          simp only [hd]
          cases hl : readExt (b &&& 15) rest2 with
          | error e =>
            simp only [hl]
            intro hc
            injection hc with hc
            subst hc
            exact readExt_not_tooShort _ _ hl
          | ok q =>
            obtain ⟨len, rest3⟩ := q
            simp only [hl]
            cases hr : parseOpts fuel (rest3.drop len) (n + delta) with
            | error e =>
              simp only [hr]
              intro hc
              injection hc with hc
              subst hc
              exact ih _ _ hr
            | ok r =>
              obtain ⟨opts, pl⟩ := r
              simp [hr]

/-- On any buffer with a complete 4-byte header, parse never raises the
typed ValueError: what the spec calls Truncated cannot occur past the
header check, the slices silently truncate instead. -/
theorem parse_no_tooShort_beyond_header (data : List Nat) (h : 4 ≤ data.length) :
    parse data ≠ Except.error DecodeError.tooShort := by
  unfold parse
  rw [if_neg (by omega)]
  cases hp : parseOpts data.length (data.drop (4 + (data.getD 0 0 &&& 15))) 0 with
  | error e =>
    intro hc
    injection hc with hc
    subst hc
    exact parseOpts_never_tooShort _ _ _ hp
  | ok p =>
    obtain ⟨opts, pl⟩ := p
    simp

/-- Lexicographic byte-string comparison is transitive. -/
theorem bytesLt_trans :
    ∀ u v w : List Nat, bytesLt u v = true → bytesLt v w = true → bytesLt u w = true := by
  intro u
  induction u with
  | nil =>
    intro v w huv hvw
    cases v with
    | nil => simp [bytesLt] at huv
    | cons y ys =>
      cases w with
      | nil => simp [bytesLt] at hvw
      | cons z zs => simp [bytesLt]
  | cons x xs ih =>
    intro v w huv hvw
    cases v with
    | nil => simp [bytesLt] at huv
    | cons y ys =>
      cases w with
      | nil => simp [bytesLt] at hvw
      | cons z zs =>
        simp only [bytesLt] at huv hvw ⊢
        by_cases h1 : x < y
        · by_cases h2 : y < z
          · simp [show x < z by omega]
          · rw [if_neg h2] at hvw
            by_cases h3 : z < y
            · rw [if_pos h3] at hvw
              cases hvw
            · rw [if_neg h3] at hvw
              simp [show x < z by omega]
        · rw [if_neg h1] at huv
          by_cases h4 : y < x
          · rw [if_pos h4] at huv
            cases huv
          · rw [if_neg h4] at huv
            by_cases h2 : y < z
            · simp [show x < z by omega]
            · rw [if_neg h2] at hvw
              by_cases h3 : z < y
              · rw [if_pos h3] at hvw
                cases hvw
              · rw [if_neg h3] at hvw
                rw [if_neg (show ¬ x < z by omega), if_neg (show ¬ z < x by omega)]
                exact ih ys zs huv hvw

/-- Lexicographic byte-string comparison is trichotomous. -/
theorem bytesLt_total :
    ∀ u v : List Nat, u = v ∨ bytesLt u v = true ∨ bytesLt v u = true := by
  intro u
  induction u with
  | nil =>
    intro v
    cases v with
    | nil => left; rfl
    | cons y ys => right; left; simp [bytesLt]
  | cons x xs ih =>
    intro v
    cases v with
    | nil => right; right; simp [bytesLt]
    | cons y ys =>
      by_cases h1 : x < y
      · right; left; simp [bytesLt, h1]
      · by_cases h2 : y < x
        · right; right; simp [bytesLt, h2]
        · have hxy : x = y := by omega
          subst hxy
          rcases ih ys with he | hlt | hgt
          · left; rw [he]
          · right; left; simp [bytesLt, hlt]
          · right; right; simp [bytesLt, hgt]

/-- Unpacking of a true tuple comparison. -/
theorem optLe_true_elim {a b : Nat × List Nat} (h : optLe a b = true) :
    a.1 < b.1 ∨ (a.1 = b.1 ∧ (a.2 = b.2 ∨ bytesLt a.2 b.2 = true)) := by
  unfold optLe at h
  by_cases h1 : a.1 < b.1
  · left; exact h1
  · rw [if_neg h1] at h
    by_cases h2 : b.1 < a.1
    · rw [if_pos h2] at h
      cases h
    · rw [if_neg h2] at h
      refine Or.inr ⟨by omega, ?_⟩
      by_cases h3 : a.2 = b.2
      · left; exact h3
      · rw [if_neg h3] at h
        right; exact h

/-- Packing of a true tuple comparison. -/
theorem optLe_intro {a b : Nat × List Nat}
    (h : a.1 < b.1 ∨ (a.1 = b.1 ∧ (a.2 = b.2 ∨ bytesLt a.2 b.2 = true))) :
    optLe a b = true := by
  unfold optLe
  rcases h with h1 | ⟨he, hv⟩
  · rw [if_pos h1]
  · rw [if_neg (show ¬ a.1 < b.1 by omega), if_neg (show ¬ b.1 < a.1 by omega)]
    rcases hv with he2 | hlt
    · rw [if_pos he2]
    · by_cases h3 : a.2 = b.2
      · rw [if_pos h3]
      · rw [if_neg h3]
        exact hlt

/-- The Python tuple order on options is total. -/
theorem optLe_total_r : ∀ a b : Nat × List Nat, OptLeR a b ∨ OptLeR b a := by
  intro a b
  unfold OptLeR
  by_cases h1 : a.1 < b.1
  · exact Or.inl (optLe_intro (Or.inl h1))
  · by_cases h2 : b.1 < a.1
    · exact Or.inr (optLe_intro (Or.inl h2))
    · rcases bytesLt_total a.2 b.2 with he | hlt | hgt
      · exact Or.inl (optLe_intro (Or.inr ⟨by omega, Or.inl he⟩))
      · exact Or.inl (optLe_intro (Or.inr ⟨by omega, Or.inr hlt⟩))
      · exact Or.inr (optLe_intro (Or.inr ⟨by omega, Or.inr hgt⟩))

/-- The Python tuple order on options is transitive. -/
theorem optLe_trans_r : ∀ a b c : Nat × List Nat, OptLeR a b → OptLeR b c → OptLeR a c := by
  intro a b c hab hbc
  unfold OptLeR at *
  rcases optLe_true_elim hab with h1 | ⟨he1, hv1⟩
  · rcases optLe_true_elim hbc with h2 | ⟨he2, hv2⟩
    · exact optLe_intro (Or.inl (by omega))
    · exact optLe_intro (Or.inl (by omega))
  · rcases optLe_true_elim hbc with h2 | ⟨he2, hv2⟩
    · exact optLe_intro (Or.inl (by omega))
    · refine optLe_intro (Or.inr ⟨by omega, ?_⟩)
      rcases hv1 with he | hlt
      · rw [he]
        exact hv2
      · rcases hv2 with he2v | hlt2
        · rw [← he2v]
          exact Or.inr hlt
        · exact Or.inr (bytesLt_trans _ _ _ hlt hlt2)

/-- One ledger operation preserves the capacity invariant. -/
theorem storeInv_runOp (s : StoreStats) (op : StoreOp)
    (h : 0 ≤ s.customers_in_store ∧ s.customers_in_store ≤ s.max_capacity) :
    0 ≤ (runOp s op).customers_in_store ∧
      (runOp s op).customers_in_store ≤ (runOp s op).max_capacity := by
  cases op with
  | enter =>
    simp only [runOp, StoreStats.add_customer]
    split
    · rename_i hc
      constructor
      · simp
        omega
      · simp
        omega
    · exact h
  | leave =>
    simp only [runOp, StoreStats.remove_customer]
    split
    · rename_i hc
      constructor
      · simp
        omega
      · simp
        omega
    · exact h

/-- Any run of ledger operations preserves the capacity invariant. -/
theorem storeInv_runOps :
    ∀ (ops : List StoreOp) (s : StoreStats),
      0 ≤ s.customers_in_store ∧ s.customers_in_store ≤ s.max_capacity →
      0 ≤ (runOps s ops).customers_in_store ∧
        (runOps s ops).customers_in_store ≤ (runOps s ops).max_capacity := by
  intro ops
  induction ops with
  | nil =>
    intro s h
    simpa [runOps] using h
  | cons op ops ih =>
    intro s h
    have hstep : runOps s (op :: ops) = runOps (runOp s op) ops := by
      simp [runOps]
    rw [hstep]
    exact ih (runOp s op) (storeInv_runOp s op h)

/-- total_entrants never decreases across any run of ledger
operations. -/
theorem total_mono_runOps :
    ∀ (more : List StoreOp) (s : StoreStats),
      s.total_entrants ≤ (runOps s more).total_entrants := by
  intro more
  induction more with
  | nil =>
    intro s
    simp [runOps]
  | cons op ops ih =>
    intro s
    have h1 : s.total_entrants ≤ (runOp s op).total_entrants := by
      cases op <;>
        simp only [runOp, StoreStats.add_customer, StoreStats.remove_customer] <;>
        split <;> simp
    have hstep : runOps s (op :: ops) = runOps (runOp s op) ops := by
      simp [runOps]
    rw [hstep]
    exact le_trans h1 (ih (runOp s op))

/- ---------------------------------------------------------------------
   Claim theorems.
   --------------------------------------------------------------------- -/

/-- C1: the round-trip contract decode(encode(m)) = m fails on the code
for any option whose delta from the previous option exceeds 12, because
serialize masks the delta to a nibble and never emits the one- or
two-byte extension that parse expects. Evaluated at msgDelta300 (the
spec example delta 300): the wire form carries nibble 12 = 300 mod 16,
and decoding yields option number 12 instead of 300; at msgDelta13 (the
one-byte extension range) the emitted nibble 13 makes the decoder
consume a missing extension byte and fail outright. -/
theorem roundTrip_fails_on_extended_deltas :
    parse (serialize msgDelta300) =
      Except.ok { version := 1, type := 0, token_length := 0, code := 1, message_id := 7,
                  token := [], options := [(12, [])], payload := [] } ∧
    parse (serialize msgDelta300) ≠ Except.ok msgDelta300 ∧
    parse (serialize msgDelta13) = Except.error DecodeError.indexError := by
  decide

/-- C2: starting from StoreStats.__init__, every sequence of
add_customer / remove_customer calls keeps
0 <= customers_in_store <= max_capacity, total_entrants never decreases
along a run, and a call that returns false leaves the state unchanged
(remove_customer at zero occupancy and add_customer at capacity
included). -/
theorem storeStats_ledger_invariant :
    (∀ ops : List StoreOp,
        0 ≤ (runOps StoreStats.init ops).customers_in_store ∧
        (runOps StoreStats.init ops).customers_in_store ≤
          (runOps StoreStats.init ops).max_capacity) ∧
    (∀ ops more : List StoreOp,
        (runOps StoreStats.init ops).total_entrants ≤
          (runOps StoreStats.init (ops ++ more)).total_entrants) ∧
    (∀ s : StoreStats, (s.add_customer).1 = false → (s.add_customer).2 = s) ∧
    (∀ s : StoreStats, (s.remove_customer).1 = false → (s.remove_customer).2 = s) := by
  refine ⟨?_, ?_, ?_, ?_⟩
  · intro ops
    exact storeInv_runOps ops StoreStats.init (by decide)
  · intro ops more
    have hsplit : runOps StoreStats.init (ops ++ more) =
        runOps (runOps StoreStats.init ops) more := by
      simp [runOps, List.foldl_append]
    rw [hsplit]
    exact total_mono_runOps more (runOps StoreStats.init ops)
  · intro s h
    unfold StoreStats.add_customer at h ⊢
    by_cases hc : s.customers_in_store < s.max_capacity
    · rw [if_pos hc] at h
      cases h
    · rw [if_neg hc]
  · intro s h
    unfold StoreStats.remove_customer at h ⊢
    by_cases hc : s.customers_in_store > 0
    · rw [if_pos hc] at h
      cases h
    · rw [if_neg hc]

/-- C2 witness: concrete instances of the invariant after a run and of
the unchanged-on-false clauses, at a full store and an empty store. -/
theorem storeStats_ledger_invariant_witness :
    (0 ≤ (runOps StoreStats.init [StoreOp.enter, StoreOp.leave]).customers_in_store ∧
      (runOps StoreStats.init [StoreOp.enter, StoreOp.leave]).customers_in_store ≤
        (runOps StoreStats.init [StoreOp.enter, StoreOp.leave]).max_capacity) ∧
    (StoreStats.add_customer
        { total_entrants := 3, customers_in_store := 10, max_capacity := 10 }).2 =
      { total_entrants := 3, customers_in_store := 10, max_capacity := 10 } ∧
    (StoreStats.remove_customer
        { total_entrants := 0, customers_in_store := 0, max_capacity := 10 }).2 =
      { total_entrants := 0, customers_in_store := 0, max_capacity := 10 } :=
  ⟨storeStats_ledger_invariant.1 [StoreOp.enter, StoreOp.leave],
   storeStats_ledger_invariant.2.2.1 _ (by decide),
   storeStats_ledger_invariant.2.2.2 _ (by decide)⟩

/-- C3: the entry handler answers Content with payload "allowed" exactly
when add_customer reports true and Content with "denied" otherwise, and
the exit handler answers Changed with "success" exactly when
remove_customer reports true and Changed with "error" otherwise; in each
case the resulting ledger state is the one the operation produced. -/
theorem handlers_respond_per_ledger :
    ∀ (msg : CoAPMessage) (s : StoreStats),
      handle_entry_request msg s =
        (create_response msg CoAPCode.CONTENT
          (strBytes (if (s.add_customer).1 then "allowed" else "denied")),
         (s.add_customer).2) ∧
      handle_exit_request msg s =
        (create_response msg CoAPCode.CHANGED
          (strBytes (if (s.remove_customer).1 then "success" else "error")),
         (s.remove_customer).2) := by
  intro msg s
  constructor
  · by_cases h : s.customers_in_store < s.max_capacity
    · simp [handle_entry_request, StoreStats.can_enter, StoreStats.add_customer, h]
    · simp [handle_entry_request, StoreStats.can_enter, StoreStats.add_customer, h]
  · by_cases h : s.customers_in_store > 0
    · simp [handle_exit_request, StoreStats.remove_customer, h]
    · simp [handle_exit_request, StoreStats.remove_customer, h]

/-- C4 counterexample: a 4-byte buffer whose token-length nibble is 13
parses successfully (token_length recorded as 13, token empty), so parse
does not reject token-length nibbles of 9 or above. -/
theorem parse_tokenLength13_accepted :
    parse [77, 1, 0, 0] =
      Except.ok { version := 1, type := 0, token_length := 13, code := 1, message_id := 0,
                  token := [], options := [], payload := [] } := by
  decide

/-- C4 amended: the typed failure of parse happens exactly on buffers
shorter than 4 bytes; with a complete header no token-length check
exists and parsing proceeds whatever the low nibble of byte 0 holds. -/
theorem parse_rejects_only_short_header (data : List Nat) :
    parse data = Except.error DecodeError.tooShort ↔ data.length < 4 := by
  constructor
  · intro hc
    by_contra hlen
    exact parse_no_tooShort_beyond_header data (by omega) hc
  · intro hlen
    unfold parse
    rw [if_pos hlen]

/-- C4 witness: the amended theorem applied at the 2-byte buffer. -/
theorem parse_rejects_only_short_header_witness :
    parse [1, 2] = Except.error DecodeError.tooShort :=
  (parse_rejects_only_short_header [1, 2]).mpr (by decide)

/-- C5 counterexample: a buffer whose version bits are 0 parses
successfully, so parse does not fail with UnsupportedVersion on a
version other than 1. -/
theorem parse_version0_accepted :
    parse [0, 0, 0, 0] =
      Except.ok { version := 0, type := 0, token_length := 0, code := 0, message_id := 0,
                  token := [], options := [], payload := [] } := by
  decide

/-- C5 amended: parse records the 2-bit version field of byte 0 as-is
and never validates it; no UnsupportedVersion failure exists in the
code (DecodeError has no such shape because parse cannot produce one). -/
theorem parse_version_unchecked :
    ∀ (data : List Nat) (m : CoAPMessage),
      parse data = Except.ok m → m.version = (data.getD 0 0 >>> 6) &&& 3 := by
  intro data m h
  unfold parse at h
  split at h
  · cases h
  · cases hp : parseOpts data.length (data.drop (4 + (data.getD 0 0 &&& 15))) 0 with
    | error e =>
      rw [hp] at h
      cases h
    | ok p =>
      obtain ⟨opts, pl⟩ := p
      rw [hp] at h
      injection h with h
      subst h
      rfl

/-- C5 witness: the amended theorem applied to the all-zero header. -/
theorem parse_version_unchecked_witness :
    ({ version := 0, type := 0, token_length := 0, code := 0, message_id := 0,
       token := [], options := [], payload := [] } : CoAPMessage).version =
      (([0, 0, 0, 0] : List Nat).getD 0 0 >>> 6) &&& 3 :=
  parse_version_unchecked [0, 0, 0, 0] _ (by decide)

/-- C6 counterexample: an option byte with delta nibble 15 (0xF0) parses
successfully into the option (15, empty), so parse does not fail with
InvalidOption on a nibble of 15. -/
theorem parse_nibble15_accepted :
    parse [64, 1, 0, 0, 240] =
      Except.ok { version := 1, type := 0, token_length := 0, code := 1, message_id := 0,
                  token := [], options := [(15, [])], payload := [] } := by
  decide

/-- C6 amended: a delta or length nibble of 15 is treated as the literal
value 15 by the shared extension reader, so a delta nibble 15 adds 15 to
the running option number and a length nibble 15 reads up to 15 value
bytes; no InvalidOption failure exists in the code. -/
theorem parse_nibble15_literal :
    (∀ rest : List Nat, readExt 15 rest = Except.ok (15, rest)) ∧
    parse [64, 1, 0, 0, 240] =
      Except.ok { version := 1, type := 0, token_length := 0, code := 1, message_id := 0,
                  token := [], options := [(15, [])], payload := [] } ∧
    parse [64, 1, 0, 0, 15, 97] =
      Except.ok { version := 1, type := 0, token_length := 0, code := 1, message_id := 0,
                  token := [], options := [(0, [97])], payload := [] } :=
  ⟨fun rest => rfl, by decide, by decide⟩

/-- C7 counterexample: a buffer declaring a 1-byte token with no token
bytes present parses successfully with an empty token instead of failing
with Truncated. -/
theorem parse_short_token_accepted :
    parse [65, 1, 0, 0] =
      Except.ok { version := 1, type := 0, token_length := 1, code := 1, message_id := 0,
                  token := [], options := [], payload := [] } := by
  decide

/-- C7 amended: past the 4-byte header check, parse never raises its
typed error: a short token and a short option value are silently
truncated to the bytes available (shown at token length 2 with no bytes,
and option length 5 with one byte), and only a missing delta/length
extension byte fails, with the untyped IndexError of data[pos] or the
untyped struct.error of a short two-byte unpack. -/
theorem parse_truncation_is_silent :
    (∀ data : List Nat, 4 ≤ data.length → parse data ≠ Except.error DecodeError.tooShort) ∧
    parse [66, 1, 0, 0] =
      Except.ok { version := 1, type := 0, token_length := 2, code := 1, message_id := 0,
                  token := [], options := [], payload := [] } ∧
    parse [64, 1, 0, 0, 37, 97] =
      Except.ok { version := 1, type := 0, token_length := 0, code := 1, message_id := 0,
                  token := [], options := [(2, [97])], payload := [] } ∧
    parse [64, 1, 0, 0, 208] = Except.error DecodeError.indexError ∧
    parse [64, 1, 0, 0, 224] = Except.error DecodeError.structError :=
  ⟨fun data h => parse_no_tooShort_beyond_header data h, by decide, by decide, by decide,
   by decide⟩

/-- C7 witness: the amended theorem applied at a 4-byte buffer. -/
theorem parse_truncation_is_silent_witness :
    parse [9, 9, 9, 9] ≠ Except.error DecodeError.tooShort :=
  parse_truncation_is_silent.1 [9, 9, 9, 9] (by decide)

/-- C8 counterexample: two options with equal number 11 and values 98
and 97, in that original order, are emitted value-sorted: the wire bytes
place value 97 first, not the original relative order (which would give
the second byte list shown). -/
theorem serialize_reorders_equal_options :
    serialize msgEqualOpts = [64, 69, 0, 5, 177, 97, 1, 98] ∧
    serialize msgEqualOpts ≠ [64, 69, 0, 5, 177, 98, 1, 97] := by
  decide

/-- C8 amended: serialize emits the options of a message as a
permutation sorted by ascending option number, and options with equal
numbers appear in ascending lexicographic order of their value bytes
(Python tuple comparison inside sorted), not in their original relative
order. -/
theorem serialize_emits_options_sorted (opts : List (Nat × List Nat)) :
    (pySorted opts).Perm opts ∧
    List.Pairwise (fun a b : Nat × List Nat => a.1 ≤ b.1) (pySorted opts) ∧
    List.Pairwise (fun a b : Nat × List Nat =>
      a.1 = b.1 → a.2 = b.2 ∨ bytesLt a.2 b.2 = true) (pySorted opts) := by
  have hs : List.Pairwise OptLeR (List.insertionSort OptLeR opts) :=
    @List.sorted_insertionSort _ OptLeR _ ⟨optLe_total_r⟩ ⟨optLe_trans_r⟩ opts
  refine ⟨List.perm_insertionSort OptLeR opts, ?_, ?_⟩
  · refine hs.imp (fun h => ?_)
    rcases optLe_true_elim h with h1 | ⟨he, _⟩ <;> omega
  · refine hs.imp (fun h heq => ?_)
    rcases optLe_true_elim h with h1 | ⟨_, hv⟩
    · omega
    · exact hv

/-- C9: create_response copies the token and message id of the request,
sets type to Acknowledgement and carries the given code and payload (the
token_length field mirrors the copied token); the embedding is a pure
function of the request, which the source never mutates. -/
theorem create_response_copies_correlation :
    ∀ (m : CoAPMessage) (code : Nat) (payload : List Nat),
      (create_response m code payload).token = m.token ∧
      (create_response m code payload).message_id = m.message_id ∧
      (create_response m code payload).type = CoAPType.ACK ∧
      (create_response m code payload).code = code ∧
      (create_response m code payload).payload = payload ∧
      (create_response m code payload).token_length = m.token.length :=
  fun _ _ _ => ⟨rfl, rfl, rfl, rfl, rfl, rfl⟩

/-- C10: every response built by create_response carries the empty
option list inherited from CoAPMessage.__init__ (no request option, URI
path segments included, is copied over), so its derived URI path is the
empty string. -/
theorem create_response_drops_options :
    ∀ (m : CoAPMessage) (code : Nat) (payload : List Nat),
      (create_response m code payload).options = [] ∧
      get_uri_path (create_response m code payload) = "" :=
  fun _ _ _ => ⟨rfl, rfl⟩
